import Mathlib

/-!
# Verification of the Quotable card configuration editor

A shallow embedding of `QuotableCardEditor` (`src/unnamed/part_002`, the most
recent snapshot of `config/www/quotable/card-editor.js`), together with proofs
about its selection-toggle reconciliation, search, load, and save logic.

Modelling conventions:
* JavaScript arrays of `{name, slug}` objects become `List Candidate`.
* DOM `<li>` / `<span>` elements are modelled by their observable state:
  their `data-name` / `data-slug` attributes (absent attribute = `none`)
  and whether their class list contains `"selected"`.
* JS numbers appearing here are integers or `NaN`; they are modelled by
  `Option Int` with `none` playing the role of `NaN`.
* Remote (`hass.callWS`) outcomes are passed in explicitly: `Except.error ()`
  models a rejected promise (caught by the surrounding `try`), `Except.ok r`
  a resolved one.  All state mutation is explicit state passing.
-/

namespace Quotable

/-- An author or tag candidate `{ name, slug }` as exchanged with the backend. -/
structure Candidate where
  name : String
  slug : String
deriving DecidableEq, Repr

/-- The observable state of a rendered DOM element: its `data-name` and
`data-slug` attributes (`none` when the attribute is absent, i.e. the JS
`dataset` read yields `undefined`) and whether its class list contains
`"selected"`. -/
structure Element where
  dsName : Option String
  dsSlug : Option String
  selected : Bool
deriving DecidableEq, Repr

/-- `<li>`/`<span>`-free element used as the out-of-range default for
`getD`; a click dispatch never actually produces it. -/
def defaultElement : Element := ⟨none, none, false⟩

/-- One selection pane of the editor: the in-memory selection array
(`this._selectedAuthors` or `this._selectedTags`), the `<li>` rows of the
candidate list container (`authorSelect` / `tagSelect`), and the `<span>`
chips of the summary container (`selectedAuthors` / `selectedTags`),
recorded as the candidate data each span carries. -/
structure SelectionPane where
  sel : List Candidate
  rows : List Element
  summary : List Candidate
deriving DecidableEq, Repr

/-- Where a click event's `target` comes from: either the `<li>` row at a
given index of the list container (the target element then aliases that
row, so marking it mutates the row list), or some other element - a summary
chip or container whitespace - carried explicitly. -/
inductive ClickSource where
  | row (i : Nat)
  | chip (e : Element)
deriving DecidableEq, Repr

/-- Resolve the clicked `event.target` element. -/
def clickTarget (p : SelectionPane) : ClickSource → Element
  | .row i => p.rows.getD i defaultElement
  | .chip e => e

/-- `isSelected` (part_002 line 31): `selectedList.some((item) => item.slug ==
selectedItem.slug)`. -/
def isSelected (selectedList : List Candidate) (selectedItem : Candidate) : Bool :=
  selectedList.any (fun item => item.slug == selectedItem.slug)

/-- Membership of a DOM `data-slug` value (possibly `undefined`) in a
selection list, by the JS `==` comparison `item.slug == dataset.slug`. -/
def slugMemB (sel : List Candidate) (d : Option String) : Bool :=
  sel.any (fun item => some item.slug == d)

/-- The `for` loop of the removal branch (part_002 lines 325-330): clear the
`"selected"` class of every `<li>` whose `data-slug` equals the clicked one. -/
def clearSelectedBySlug (ts : String) (rows : List Element) : List Element :=
  rows.map (fun e => if e.dsSlug == some ts then { e with selected := false } else e)

/-- `addRemoveSelectedItem(_selectedItems, targetElement, selectedItems, id)`
(part_002 lines 315-347).  Guard: a target without `data-slug` is a no-op.
Otherwise: if some selected item's slug `==` the target's slug, splice it out
and clear the `"selected"` class of every matching row; else push
`{name: dataset.name, slug: dataset.slug}` and add `"selected"` to the
clicked element itself.  Either way the summary container is rebuilt from
the updated selection and `updateConfiguration()` is triggered.  The second
component reports whether that save was triggered.  A JS `dataset.name` read
of an absent attribute interpolates as `"undefined"` downstream, which is
what `Option.getD "undefined"` records. -/
def addRemoveSelectedItem (p : SelectionPane) (src : ClickSource) :
    SelectionPane × Bool :=
  match (clickTarget p src).dsSlug with
  | none => (p, false)
  | some ts =>
    match p.sel.findIdx? (fun item => item.slug == ts) with
    | some index =>
      ({ sel := p.sel.eraseIdx index, rows := clearSelectedBySlug ts p.rows,
         summary := p.sel.eraseIdx index }, true)
    | none =>
      ({ sel := p.sel ++ [⟨(clickTarget p src).dsName.getD "undefined", ts⟩],
         rows :=
           match src with
           | .row i => p.rows.set i { clickTarget p src with selected := true }
           | .chip _ => p.rows,
         summary :=
           p.sel ++ [⟨(clickTarget p src).dsName.getD "undefined", ts⟩] }, true)

/-- Render one candidate `<li>` row: carries `data-name`, `data-slug`, and
class `"selected"` iff the slug is in the selection (part_002 lines 198-209
and 378-389). -/
def renderRow (sel : List Candidate) (c : Candidate) : Element :=
  ⟨some c.name, some c.slug, isSelected sel c⟩

/-- Render the candidate list container from a candidate list. -/
def renderRows (sel : List Candidate) (cs : List Candidate) : List Element :=
  cs.map (renderRow sel)

/-- A resolved `hass.callWS` response body `{ response: { success, data } }`. -/
structure WSResponse where
  success : Bool
  data : List Candidate
deriving DecidableEq, Repr

/-- Card style state `{ bg_color, text_color }`. -/
structure Styles where
  bg_color : String
  text_color : String
deriving DecidableEq, Repr

/-- The entity attributes read from `hass.states[entity].attributes` at load
time.  (A malformed attribute object would make the JS reads throw inside
the surrounding `try`; only the well-formed shape is modelled.) -/
structure HassAttributes where
  selected_authors : List Candidate
  selected_tags : List Candidate
  styles : Styles
  update_frequency : Int
deriving DecidableEq, Repr

/-- The editor's `config` object; `entity` is `none` when the key is absent. -/
structure Config where
  entity : Option String
deriving DecidableEq, Repr

/-- JS falsiness of `this._config.entity`: absent or the empty string. -/
def entityFalsy (cfg : Config) : Bool :=
  match cfg.entity with
  | none => true
  | some s => s == ""

/-- The full mutable state of one `QuotableCardEditor` instance, including
the rendered DOM it owns (`rendered` records whether the form element has
been produced). -/
structure EditorState where
  authors : List Candidate
  initialAuthors : List Candidate
  tags : List Candidate
  authorsPane : SelectionPane
  tagsPane : SelectionPane
  intervalValue : String
  selectedBgColor : String
  selectedTextColor : String
  rendered : Bool
deriving DecidableEq, Repr

/-- Constructor state (part_002 lines 2-13): everything empty, unrendered. -/
def initialEditorState : EditorState :=
  { authors := [], initialAuthors := [], tags := []
    authorsPane := ⟨[], [], []⟩, tagsPane := ⟨[], [], []⟩
    intervalValue := "", selectedBgColor := "", selectedTextColor := ""
    rendered := false }

/-- The interval string shown after load: `(update_frequency / 60).toString()`.
JS divides as floating point; this is modelled at integer precision, exact
for the multiples of 60 the editor itself writes back (minutes x 60).  No
claim settled here depends on the inexact case. -/
def intervalString (updateFrequency : Int) : String :=
  toString (updateFrequency / 60)

/-- `renderForm()` (part_002 lines 95-312), restricted to the state it
produces: both panes get freshly rendered rows (class `"selected"` per
`isSelected`) and summary chips built from the current selections, and the
form element now exists. -/
def renderForm (s : EditorState) : EditorState :=
  { s with
    authorsPane :=
      { sel := s.authorsPane.sel
        rows := renderRows s.authorsPane.sel s.authors
        summary := s.authorsPane.sel }
    tagsPane :=
      { sel := s.tagsPane.sel
        rows := renderRows s.tagsPane.sel s.tags
        summary := s.tagsPane.sel }
    rendered := true }

/-- `loadOptions()` (part_002 lines 35-92).  Aborts unrendered when the
config has no entity.  Otherwise restores selections/styles/interval from
`hass.states[entity]` when present, then fetches authors (a rejection is
caught and aborts, keeping whatever was already assigned), snapshots
`_initial_authors`, fetches tags likewise, and finally renders the form. -/
def loadOptions (cfg : Config) (stateAttrs : Option HassAttributes)
    (aOut tOut : Except Unit WSResponse) (s : EditorState) : EditorState :=
  if entityFalsy cfg then s
  else
    let s1 :=
      match stateAttrs with
      | some attrs =>
        { s with
          authorsPane.sel := attrs.selected_authors
          tagsPane.sel := attrs.selected_tags
          selectedBgColor := attrs.styles.bg_color
          selectedTextColor := attrs.styles.text_color
          intervalValue := intervalString attrs.update_frequency }
      | none => s
    match aOut with
    | .error _ => s1
    | .ok ra =>
      let s2 := { s1 with authors := if ra.success then ra.data else [] }
      let s3 := { s2 with initialAuthors := s2.authors }
      match tOut with
      | .error _ => s3
      | .ok rt => renderForm { s3 with tags := if rt.success then rt.data else [] }

/-- `searchAuthor(query)` (part_002 lines 350-394).  An empty query restores
`_initial_authors` without any remote call; otherwise the search call's
resolved data (or `[]` on `success: false`) replaces `_authors`, a rejection
being caught with no change at all.  In the non-aborting cases the author
list container is re-rendered with `"selected"` classes recomputed from the
current selection. -/
def searchAuthor (s : EditorState) (query : String)
    (outcome : Except Unit WSResponse) : EditorState :=
  if query = "" then
    { s with
      authors := s.initialAuthors
      authorsPane.rows := renderRows s.authorsPane.sel s.initialAuthors }
  else
    match outcome with
    | .error _ => s
    | .ok r =>
      let authors := if r.success then r.data else []
      { s with
        authors := authors
        authorsPane.rows := renderRows s.authorsPane.sel authors }

/-- JS `parseInt(string)` at radix 10: skip leading whitespace, read an
optional sign and then the longest digit prefix, ignoring any trailing
characters; `NaN` (here `none`) when no digit is found. -/
def parseIntJS (s : String) : Option Int :=
  let cs := s.toList.dropWhile (fun c => c.isWhitespace)
  let signed : Bool × List Char :=
    match cs with
    | '-' :: rest => (true, rest)
    | '+' :: rest => (false, rest)
    | _ => (false, cs)
  let ds := signed.2.takeWhile (fun c => c.isDigit)
  if ds.isEmpty then none
  else
    let n : Nat := ds.foldl (fun n c => 10 * n + (c.toNat - 48)) 0
    some (if signed.1 then -(n : Int) else (n : Int))

/-- JS multiplication on numbers that are either integers or `NaN`:
`NaN` absorbs. -/
def jsMulNaN (a b : Option Int) : Option Int :=
  match a, b with
  | some x, some y => some (x * y)
  | _, _ => none

/-- The `service_data` payload of `update_configuration` as built by
part_002's `updateConfiguration` (lines 399-408): the selected tags and
authors are sent as the full `{name, slug}` candidate arrays, and
`update_frequency` is `parseInt(this._intervalValue) * 60` (NaN-valued on a
non-numeric interval). -/
structure UpdateConfigData where
  entity_id : Option String
  selected_tags : List Candidate
  selected_authors : List Candidate
  update_frequency : Option Int
  styles : Styles
deriving DecidableEq, Repr

/-- `updateConfigData` (part_002 lines 399-408). -/
def updateConfigData (cfg : Config) (s : EditorState) : UpdateConfigData :=
  { entity_id := cfg.entity
    selected_tags := s.tagsPane.sel
    selected_authors := s.authorsPane.sel
    update_frequency := jsMulNaN (parseIntJS s.intervalValue) (some 60)
    styles := ⟨s.selectedBgColor, s.selectedTextColor⟩ }

/-- The same payload as built by the part_001 snapshot (lines 354-363),
which maps the selections to their slug arrays instead:
`selected_tags: this._selectedTags.map((tag) => tag.slug)` and likewise for
authors. -/
structure UpdateConfigDataSlugs where
  entity_id : Option String
  selected_tags : List String
  selected_authors : List String
  update_frequency : Option Int
  styles : Styles
deriving DecidableEq, Repr

/-- `updateConfigData` of the part_001 snapshot (lines 354-363). -/
def updateConfigDataV001 (cfg : Config) (s : EditorState) : UpdateConfigDataSlugs :=
  { entity_id := cfg.entity
    selected_tags := s.tagsPane.sel.map (fun tag => tag.slug)
    selected_authors := s.authorsPane.sel.map (fun author => author.slug)
    update_frequency := jsMulNaN (parseIntJS s.intervalValue) (some 60)
    styles := ⟨s.selectedBgColor, s.selectedTextColor⟩ }

/-- The observable outcome of one `updateConfiguration()` run: the payload
sent on the `update_configuration` call, the `config-changed` events
dispatched (each carrying its `detail.config`), and how many `fetch_a_quote`
calls `fetchQuote()` issued. -/
structure SaveTrace where
  sent : UpdateConfigData
  configChangedEvents : List Config
  fetchQuoteCalls : Nat
deriving DecidableEq, Repr

/-- `updateConfiguration()` (part_002 lines 397-435) together with the
`fetchQuote()` it triggers (lines 438-453).  The payload is always built and
submitted; a rejected call is caught and nothing further happens.  When the
call resolves, the `if (responseUpdateConfig)` guard fires the
`config-changed` event (detail carrying `this._config` unchanged) and then
`fetchQuote()` - one `fetch_a_quote` call - only when the resolved
acknowledgement is truthy (`ack = true`).  No editor field is ever written,
so the state is returned unchanged in every branch. -/
def updateConfiguration (cfg : Config) (s : EditorState)
    (outcome : Except Unit Bool) : EditorState × SaveTrace :=
  let payload := updateConfigData cfg s
  match outcome with
  | .error _ => (s, ⟨payload, [], 0⟩)
  | .ok ack =>
    if ack then (s, ⟨payload, [cfg], 1⟩)
    else (s, ⟨payload, [], 0⟩)

/-! ## Event traces

The editor is single-threaded and event-driven: each user event runs one
handler to completion.  A trace is a list of events, each carrying the data
the environment (DOM click dispatch, remote backend) supplies to its
handler. -/

/-- A user-interface event on a rendered editor: a keystroke in the author
search box (running `searchAuthor` with the given remote outcome), or a
click dispatched to one of the two selection panes. -/
inductive UIEvent where
  | search (q : String) (outcome : Except Unit WSResponse)
  | toggleAuthors (src : ClickSource)
  | toggleTags (src : ClickSource)

/-- Apply one UI event to the editor state. -/
def stepUI (s : EditorState) : UIEvent → EditorState
  | .search q outcome => searchAuthor s q outcome
  | .toggleAuthors src =>
    { s with authorsPane := (addRemoveSelectedItem s.authorsPane src).1 }
  | .toggleTags src =>
    { s with tagsPane := (addRemoveSelectedItem s.tagsPane src).1 }

/-- Run a list of UI events. -/
def runUI (s : EditorState) (evs : List UIEvent) : EditorState :=
  evs.foldl stepUI s

/-- Any editor event: a `loadOptions` run (as triggered by
`connectedCallback`) or a UI event. -/
inductive Event where
  | load (cfg : Config) (stateAttrs : Option HassAttributes)
      (aOut tOut : Except Unit WSResponse)
  | ui (e : UIEvent)

/-- Apply one event. -/
def step (s : EditorState) : Event → EditorState
  | .load cfg attrs aOut tOut => loadOptions cfg attrs aOut tOut s
  | .ui e => stepUI s e

/-- Run a list of events. -/
def run (s : EditorState) (evs : List Event) : EditorState :=
  evs.foldl step s

/-! ## Invariants -/

/-- A candidate list contains no two entries with the same slug. -/
def nodupSlugs (l : List Candidate) : Prop :=
  (l.map (fun c => c.slug)).Nodup

instance (l : List Candidate) : Decidable (nodupSlugs l) :=
  inferInstanceAs (Decidable (List.Nodup _))

/-- A row's visual `"selected"` marker agrees with membership of its slug in
the selection list. -/
def rowOk (sel : List Candidate) (r : Element) : Prop :=
  r.selected = slugMemB sel r.dsSlug

instance (sel : List Candidate) (r : Element) : Decidable (rowOk sel r) :=
  inferInstanceAs (Decidable (_ = _))

/-- The pane invariant maintained by rendering and toggling: the selection
is slug-deduplicated, the rendered rows carry pairwise distinct `data-slug`
attributes, the summary chips mirror the selection exactly, and every row's
marker agrees with selection membership. -/
def paneInv (p : SelectionPane) : Prop :=
  nodupSlugs p.sel ∧ (p.rows.map (fun r => r.dsSlug)).Nodup ∧
    p.summary = p.sel ∧ ∀ r ∈ p.rows, rowOk p.sel r

instance (p : SelectionPane) : Decidable (paneInv p) :=
  inferInstanceAs (Decidable (_ ∧ _ ∧ _ ∧ _))

/-- Editor-wide invariant for the rendered editor: both panes satisfy the
pane invariant and the load-time author snapshot is slug-deduplicated. -/
def editorInv (s : EditorState) : Prop :=
  paneInv s.authorsPane ∧ paneInv s.tagsPane ∧ nodupSlugs s.initialAuthors

instance (s : EditorState) : Decidable (editorInv s) :=
  inferInstanceAs (Decidable (_ ∧ _ ∧ _))

/-- The `<span>` chip element rendered for a selected candidate: it carries
the candidate's `data-name`/`data-slug` and no `"selected"` class. -/
def chipElem (c : Candidate) : Element :=
  ⟨some c.name, some c.slug, false⟩

/-- A click source the DOM can actually dispatch to a pane's listeners:
either an existing row of the list container, or - for the summary
container - one of its chips or a slug-less element (container whitespace). -/
def validSrcB (p : SelectionPane) : ClickSource → Bool
  | .row i => decide (i < p.rows.length)
  | .chip e => decide (e.dsSlug = none) || p.summary.any (fun c => decide (e = chipElem c))

/-- Environment well-formedness of one UI event, relative to the state it
fires in: search results are slug-deduplicated (the spec's data model makes
candidates unique by slug) and clicks come from the pane's own DOM. -/
def eventOKUI (s : EditorState) : UIEvent → Bool
  | .search _ outcome =>
    match outcome with
    | .ok r => decide (nodupSlugs r.data)
    | .error _ => true
  | .toggleAuthors src => validSrcB s.authorsPane src
  | .toggleTags src => validSrcB s.tagsPane src

/-- Environment well-formedness of a UI trace. -/
def okUITrace : EditorState → List UIEvent → Bool
  | _, [] => true
  | s, e :: evs => eventOKUI s e && okUITrace (stepUI s e) evs

/-- Both in-memory selection sequences are slug-deduplicated. -/
def selectionsNodup (s : EditorState) : Prop :=
  nodupSlugs s.authorsPane.sel ∧ nodupSlugs s.tagsPane.sel

instance (s : EditorState) : Decidable (selectionsNodup s) :=
  inferInstanceAs (Decidable (_ ∧ _))

/-- The stored selections a `load` event reads back are slug-deduplicated
(the backend round-trips what the editor saved); other events need nothing
for the selection invariant. -/
def loadAttrsOK : Event → Bool
  | .load _ (some attrs) _ _ =>
    decide (nodupSlugs attrs.selected_authors) &&
      decide (nodupSlugs attrs.selected_tags)
  | _ => true

/-! ## Helper lemmas -/

theorem beq_some_some (a b : String) : (some a == some b) = (a == b) := rfl

theorem slugMemB_some_iff {sel : List Candidate} {ts : String} :
    slugMemB sel (some ts) = true ↔ ∃ c ∈ sel, c.slug = ts := by
  simp [slugMemB, beq_some_some]

theorem slugMemB_some_eq_false_iff {sel : List Candidate} {ts : String} :
    slugMemB sel (some ts) = false ↔ ∀ c ∈ sel, c.slug ≠ ts := by
  simp [slugMemB, beq_some_some]

theorem slugMemB_nil (d : Option String) : slugMemB [] d = false := rfl

theorem slugMemB_cons {c : Candidate} {cs : List Candidate} {d : Option String} :
    slugMemB (c :: cs) d = ((some c.slug == d) || slugMemB cs d) := by
  simp [slugMemB]

theorem slugMemB_none (sel : List Candidate) : slugMemB sel none = false := by
  induction sel with
  | nil => rfl
  | cons c cs ih => rw [slugMemB_cons, ih]; rfl

theorem slugMemB_append {sel₁ sel₂ : List Candidate} {d : Option String} :
    slugMemB (sel₁ ++ sel₂) d = (slugMemB sel₁ d || slugMemB sel₂ d) := by
  simp [slugMemB]

/-- The `findIndex` + `splice(index, 1)` pair of the removal branch erases
exactly the first match. -/
theorem eraseIdx_findIdx?_eq_eraseP {l : List Candidate} {p : Candidate → Bool}
    {i : Nat} (h : l.findIdx? p = some i) : l.eraseIdx i = l.eraseP p := by
  induction l generalizing i with
  | nil => simp at h
  | cons c cs ih =>
    rw [List.findIdx?_cons] at h
    by_cases hc : p c = true
    · simp only [hc, if_true, Option.some.injEq] at h
      subst h
      simp [List.eraseP_cons, hc]
    · rw [Bool.not_eq_true] at hc
      rw [hc] at h
      simp only [Bool.false_eq_true, if_false, List.findIdx?_succ] at h
      cases hcs : cs.findIdx? p with
      | none => rw [hcs] at h; simp at h
      | some j =>
        rw [hcs] at h
        simp only [Option.map_some', Option.some.injEq] at h
        rw [← h]
        simp [List.eraseP_cons, hc, List.eraseIdx, ih hcs]

theorem nodupSlugs_eraseP {sel : List Candidate} {p : Candidate → Bool}
    (h : nodupSlugs sel) : nodupSlugs (sel.eraseP p) :=
  List.Nodup.sublist ((List.eraseP_sublist sel).map (fun c => c.slug)) h

/-- After erasing the (unique, by `nodupSlugs`) entry with the clicked slug,
that slug is no longer a member. -/
theorem slugMemB_eraseP_self {sel : List Candidate} {ts : String}
    (h : nodupSlugs sel) :
    slugMemB (sel.eraseP (fun c => c.slug == ts)) (some ts) = false := by
  induction sel with
  | nil => rfl
  | cons c cs ih =>
    rw [nodupSlugs, List.map_cons, List.nodup_cons] at h
    rw [List.eraseP_cons]
    by_cases hc : (c.slug == ts) = true
    · rw [hc]
      show slugMemB cs (some ts) = false
      rw [slugMemB_some_eq_false_iff]
      intro x hx hslug
      apply h.1
      rw [beq_iff_eq] at hc
      rw [← hc] at hslug
      rw [← hslug]
      exact List.mem_map_of_mem (fun c => c.slug) hx
    · rw [Bool.not_eq_true] at hc
      rw [hc]
      show slugMemB (c :: List.eraseP (fun c => c.slug == ts) cs) (some ts) = false
      rw [slugMemB_cons, Bool.or_eq_false_iff]
      refine ⟨?_, ih h.2⟩
      rw [beq_some_some]
      exact hc

/-- Erasing the clicked slug's entry does not change membership of any other
`data-slug` value. -/
theorem slugMemB_eraseP_ne {sel : List Candidate} {ts : String} {d : Option String}
    (hd : d ≠ some ts) :
    slugMemB (sel.eraseP (fun c => c.slug == ts)) d = slugMemB sel d := by
  induction sel with
  | nil => rfl
  | cons c cs ih =>
    rw [List.eraseP_cons]
    by_cases hc : (c.slug == ts) = true
    · rw [hc]
      show slugMemB cs d = slugMemB (c :: cs) d
      have hhead : (some c.slug == d) = false := by
        rw [beq_iff_eq] at hc
        subst hc
        cases d with
        | none => rfl
        | some x =>
          rw [beq_eq_false_iff_ne]
          intro hcontra
          exact hd (by rw [← hcontra])
      rw [slugMemB_cons, hhead, Bool.false_or]
    · rw [Bool.not_eq_true] at hc
      rw [hc]
      show slugMemB (c :: List.eraseP (fun c => c.slug == ts) cs) d = slugMemB (c :: cs) d
      rw [slugMemB_cons, slugMemB_cons, ih]

theorem beq_none_some (ts : String) :
    ((none : Option String) == some ts) = false := rfl

theorem beq_some_ne {d : Option String} {ts : String} (hd : d ≠ some ts) :
    ((some ts : Option String) == d) = false := by
  cases d with
  | none => rfl
  | some x =>
    rw [beq_some_some, beq_eq_false_iff_ne]
    intro h
    exact hd (by rw [h])

theorem slugMemB_append_singleton_ne {sel : List Candidate} {n ts : String}
    {d : Option String} (hd : d ≠ some ts) :
    slugMemB (sel ++ [⟨n, ts⟩]) d = slugMemB sel d := by
  rw [slugMemB_append, slugMemB_cons, slugMemB_nil, beq_some_ne hd]
  simp

theorem slugMemB_append_singleton_self (sel : List Candidate) (n ts : String) :
    slugMemB (sel ++ [⟨n, ts⟩]) (some ts) = true := by
  rw [slugMemB_append, slugMemB_cons, slugMemB_nil]
  simp

theorem nodupSlugs_append_new {sel : List Candidate} {n ts : String}
    (h : nodupSlugs sel) (hts : ∀ c ∈ sel, c.slug ≠ ts) :
    nodupSlugs (sel ++ [⟨n, ts⟩]) := by
  unfold nodupSlugs at h ⊢
  rw [List.map_append]
  refine List.Nodup.append h (List.nodup_singleton ts) ?_
  intro a ha hats
  rw [List.map_singleton, List.mem_singleton] at hats
  subst hats
  obtain ⟨c, hc, hcslug⟩ := List.mem_map.mp ha
  exact hts c hc hcslug

theorem clearSelectedBySlug_cons {ts : String} {r : Element} {rs : List Element} :
    clearSelectedBySlug ts (r :: rs) =
      (if r.dsSlug == some ts then { r with selected := false } else r)
        :: clearSelectedBySlug ts rs := rfl

theorem map_dsSlug_clearSelectedBySlug (ts : String) (rows : List Element) :
    (clearSelectedBySlug ts rows).map (fun r => r.dsSlug)
      = rows.map (fun r => r.dsSlug) := by
  induction rows with
  | nil => rfl
  | cons r rs ih =>
    rw [clearSelectedBySlug_cons, List.map_cons, List.map_cons, ih]
    by_cases h : (r.dsSlug == some ts) = true
    · rw [if_pos h]
    · rw [if_neg h]

theorem rowOk_clear_elem {sel : List Candidate} {ts : String} {a : Element}
    (hn : nodupSlugs sel) (ha : rowOk sel a) :
    rowOk (sel.eraseP (fun c => c.slug == ts))
      (if a.dsSlug == some ts then { a with selected := false } else a) := by
  by_cases h : (a.dsSlug == some ts) = true
  · rw [if_pos h]
    show false = slugMemB _ a.dsSlug
    have hds : a.dsSlug = some ts := by
      cases hcase : a.dsSlug with
      | none => rw [hcase] at h; exact absurd h (by rw [beq_none_some]; simp)
      | some x =>
        rw [hcase, beq_some_some, beq_iff_eq] at h
        rw [h]
    rw [hds, slugMemB_eraseP_self hn]
  · rw [if_neg h]
    have hne : a.dsSlug ≠ some ts := by
      intro hcontra
      exact h (by rw [hcontra, beq_some_some, beq_iff_eq])
    show a.selected = _
    rw [slugMemB_eraseP_ne hne]
    exact ha

theorem getD_mem_of_lt {l : List Element} {j : Nat} (h : j < l.length) :
    l.getD j defaultElement ∈ l := by
  rw [List.getD_eq_getElem?_getD, List.getElem?_eq_getElem h]
  exact List.getElem_mem h

theorem map_dsSlug_set_mark {rows : List Element} {i : Nat}
    (hi : i < rows.length) :
    (rows.set i { rows.getD i defaultElement with selected := true }).map
        (fun r => r.dsSlug)
      = rows.map (fun r => r.dsSlug) := by
  induction rows generalizing i with
  | nil => simp at hi
  | cons a rs ih =>
    cases i with
    | zero => simp
    | succ j =>
      rw [List.getD_cons_succ, List.set_cons_succ, List.map_cons, List.map_cons,
        ih (by simpa using hi)]

theorem rowOk_set_mark {rows : List Element} {sel : List Candidate} {i : Nat}
    {n ts : String}
    (hnodup : (rows.map (fun r => r.dsSlug)).Nodup)
    (hok : ∀ r ∈ rows, rowOk sel r)
    (hts : (rows.getD i defaultElement).dsSlug = some ts) :
    ∀ r ∈ rows.set i { rows.getD i defaultElement with selected := true },
      rowOk (sel ++ [⟨n, ts⟩]) r := by
  induction rows generalizing i with
  | nil => intro r hr; simp at hr
  | cons a rs ih =>
    rw [List.map_cons, List.nodup_cons] at hnodup
    cases i with
    | zero =>
      rw [List.getD_cons_zero] at hts ⊢
      rw [List.set_cons_zero]
      intro r hr
      rcases List.mem_cons.mp hr with rfl | hrs
      · show true = slugMemB (sel ++ [⟨n, ts⟩]) a.dsSlug
        rw [hts, slugMemB_append_singleton_self]
      · have hane : r.dsSlug ≠ some ts := by
          intro hcontra
          apply hnodup.1
          rw [hts, ← hcontra]
          exact List.mem_map_of_mem (fun r => r.dsSlug) hrs
        show r.selected = _
        rw [slugMemB_append_singleton_ne hane]
        exact hok r (List.mem_cons_of_mem a hrs)
    | succ j =>
      rw [List.getD_cons_succ] at hts ⊢
      rw [List.set_cons_succ]
      by_cases hj : j < rs.length
      · intro r hr
        rcases List.mem_cons.mp hr with rfl | hrs
        · have hane : r.dsSlug ≠ some ts := by
            intro hcontra
            apply hnodup.1
            rw [hcontra, ← hts]
            exact List.mem_map_of_mem (fun r => r.dsSlug) (getD_mem_of_lt hj)
          show r.selected = _
          rw [slugMemB_append_singleton_ne hane]
          exact hok r (List.mem_cons_self r rs)
        · exact ih hnodup.2 (fun r hr => hok r (List.mem_cons_of_mem a hr)) hts r hrs
      · exfalso
        rw [List.getD_eq_getElem?_getD, List.getElem?_eq_none (Nat.le_of_not_lt hj)] at hts
        simp [defaultElement] at hts

/-! ### Characterizing the three branches of `addRemoveSelectedItem` -/

theorem addRemove_guard {p : SelectionPane} {src : ClickSource}
    (h : (clickTarget p src).dsSlug = none) :
    addRemoveSelectedItem p src = (p, false) := by
  unfold addRemoveSelectedItem
  split
  · rfl
  · rename_i ts heq
    rw [h] at heq
    cases heq

theorem addRemove_remove {p : SelectionPane} {src : ClickSource} {ts : String}
    {i : Nat} (hts : (clickTarget p src).dsSlug = some ts)
    (hfind : p.sel.findIdx? (fun item => item.slug == ts) = some i) :
    addRemoveSelectedItem p src =
      ({ sel := p.sel.eraseIdx i, rows := clearSelectedBySlug ts p.rows,
         summary := p.sel.eraseIdx i }, true) := by
  unfold addRemoveSelectedItem
  split
  · rename_i heq
    rw [hts] at heq
    cases heq
  · rename_i ts2 heq
    rw [hts] at heq
    cases heq
    split
    · rename_i j heq2
      rw [hfind] at heq2
      cases heq2
      rfl
    · rename_i heq2
      rw [hfind] at heq2
      cases heq2

theorem addRemove_add {p : SelectionPane} {src : ClickSource} {ts : String}
    (hts : (clickTarget p src).dsSlug = some ts)
    (hfind : p.sel.findIdx? (fun item => item.slug == ts) = none) :
    addRemoveSelectedItem p src =
      ({ sel := p.sel ++ [⟨(clickTarget p src).dsName.getD "undefined", ts⟩],
         rows :=
           match src with
           | .row i => p.rows.set i { clickTarget p src with selected := true }
           | .chip _ => p.rows,
         summary :=
           p.sel ++ [⟨(clickTarget p src).dsName.getD "undefined", ts⟩] },
       true) := by
  unfold addRemoveSelectedItem
  split
  · rename_i heq
    rw [hts] at heq
    cases heq
  · rename_i ts2 heq
    rw [hts] at heq
    cases heq
    split
    · rename_i j heq2
      rw [hfind] at heq2
      cases heq2
    · cases src <;> rfl

/-- The in-memory selection produced by the found (removal) branch is the
first-match erasure. -/
theorem addRemove_remove_sel_eraseP {p : SelectionPane} {src : ClickSource}
    {ts : String} {i : Nat} (hts : (clickTarget p src).dsSlug = some ts)
    (hfind : p.sel.findIdx? (fun item => item.slug == ts) = some i) :
    (addRemoveSelectedItem p src).1.sel
      = p.sel.eraseP (fun item => item.slug == ts) := by
  rw [addRemove_remove hts hfind]
  exact eraseIdx_findIdx?_eq_eraseP hfind

/-- A `findIdx?` miss means the clicked slug is not in the selection. -/
theorem not_mem_of_findIdx?_none {sel : List Candidate} {ts : String}
    (h : sel.findIdx? (fun item => item.slug == ts) = none) :
    ∀ c ∈ sel, c.slug ≠ ts := by
  intro c hc
  have := List.findIdx?_eq_none_iff.mp h c hc
  rw [beq_eq_false_iff_ne] at this
  exact this

/-- Core preservation: a click dispatched from the pane's own DOM keeps the
pane invariant. -/
theorem addRemove_paneInv {p : SelectionPane} {src : ClickSource}
    (hp : paneInv p) (hsrc : validSrcB p src = true) :
    paneInv (addRemoveSelectedItem p src).1 := by
  obtain ⟨hnsel, hnrows, hsum, hrows⟩ := hp
  cases hts : (clickTarget p src).dsSlug with
  | none =>
    rw [addRemove_guard hts]
    exact ⟨hnsel, hnrows, hsum, hrows⟩
  | some ts =>
    cases hfind : p.sel.findIdx? (fun item => item.slug == ts) with
    | some i =>
      rw [addRemove_remove hts hfind]
      rw [eraseIdx_findIdx?_eq_eraseP hfind]
      refine ⟨nodupSlugs_eraseP hnsel, ?_, rfl, ?_⟩
      · rw [map_dsSlug_clearSelectedBySlug]
        exact hnrows
      · intro r hr
        obtain ⟨a, ha, rfl⟩ := List.mem_map.mp hr
        exact rowOk_clear_elem hnsel (hrows a ha)
    | none =>
      cases src with
      | row i =>
        have hi : i < p.rows.length := by
          have := hsrc
          unfold validSrcB at this
          exact of_decide_eq_true this
        rw [addRemove_add hts hfind]
        refine ⟨?_, ?_, rfl, ?_⟩
        · exact nodupSlugs_append_new hnsel (not_mem_of_findIdx?_none hfind)
        · show ((p.rows.set i
            { p.rows.getD i defaultElement with selected := true }).map
              (fun r => r.dsSlug)).Nodup
          rw [map_dsSlug_set_mark hi]
          exact hnrows
        · exact rowOk_set_mark hnrows hrows hts
      | chip e =>
        exfalso
        unfold validSrcB at hsrc
        rw [Bool.or_eq_true] at hsrc
        rcases hsrc with hnone | hchip
        · have : e.dsSlug = none := of_decide_eq_true hnone
          rw [show clickTarget p (.chip e) = e from rfl] at hts
          rw [this] at hts
          cases hts
        · rw [List.any_eq_true] at hchip
          obtain ⟨c, hc, hceq⟩ := hchip
          have hec : e = chipElem c := of_decide_eq_true hceq
          rw [show clickTarget p (.chip e) = e from rfl, hec] at hts
          have hcslug : c.slug = ts := by
            have : (chipElem c).dsSlug = some c.slug := rfl
            rw [this] at hts
            exact Option.some.inj hts
          rw [hsum] at hc
          exact not_mem_of_findIdx?_none hfind c hc hcslug

/-! ### Rendering and the other operations preserve the invariants -/

theorem isSelected_eq_slugMemB (sel : List Candidate) (c : Candidate) :
    isSelected sel c = slugMemB sel (some c.slug) := by
  simp only [isSelected, slugMemB, beq_some_some]

theorem nodup_dsSlug_renderRows (sel : List Candidate) {cs : List Candidate}
    (hcs : nodupSlugs cs) :
    ((renderRows sel cs).map (fun r => r.dsSlug)).Nodup := by
  unfold renderRows
  rw [List.map_map]
  have h1 : ((fun r => r.dsSlug) ∘ renderRow sel)
      = some ∘ (fun c => c.slug) := rfl
  rw [h1, ← List.map_map]
  exact hcs.map (Option.some_injective String)

theorem rowOk_renderRows (sel : List Candidate) (cs : List Candidate) :
    ∀ r ∈ renderRows sel cs, rowOk sel r := by
  intro r hr
  obtain ⟨c, _, rfl⟩ := List.mem_map.mp hr
  show isSelected sel c = slugMemB sel (some c.slug)
  exact isSelected_eq_slugMemB sel c

theorem searchAuthor_pane_sel (s : EditorState) (q : String)
    (o : Except Unit WSResponse) :
    (searchAuthor s q o).authorsPane.sel = s.authorsPane.sel ∧
      (searchAuthor s q o).tagsPane = s.tagsPane ∧
      (searchAuthor s q o).initialAuthors = s.initialAuthors := by
  unfold searchAuthor
  by_cases hq : q = ""
  · rw [if_pos hq]
    exact ⟨rfl, rfl, rfl⟩
  · rw [if_neg hq]
    cases o with
    | error e => exact ⟨rfl, rfl, rfl⟩
    | ok r => exact ⟨rfl, rfl, rfl⟩

theorem searchAuthor_editorInv {s : EditorState} {q : String}
    {o : Except Unit WSResponse} (hs : editorInv s)
    (ho : (match o with
      | .ok r => decide (nodupSlugs r.data)
      | .error _ => true) = true) :
    editorInv (searchAuthor s q o) := by
  obtain ⟨⟨ha1, ha2, ha3, ha4⟩, ht, hi⟩ := hs
  unfold searchAuthor
  by_cases hq : q = ""
  · rw [if_pos hq]
    exact ⟨⟨ha1, nodup_dsSlug_renderRows _ hi, ha3, rowOk_renderRows _ _⟩, ht, hi⟩
  · rw [if_neg hq]
    cases o with
    | error e => exact ⟨⟨ha1, ha2, ha3, ha4⟩, ht, hi⟩
    | ok r =>
      have hnod : nodupSlugs (if r.success then r.data else []) := by
        by_cases hsucc : r.success = true
        · rw [if_pos hsucc]
          exact of_decide_eq_true ho
        · rw [if_neg hsucc]
          exact List.nodup_nil
      exact ⟨⟨ha1, nodup_dsSlug_renderRows _ hnod, ha3, rowOk_renderRows _ _⟩, ht, hi⟩

theorem stepUI_editorInv {s : EditorState} {e : UIEvent}
    (hs : editorInv s) (he : eventOKUI s e = true) :
    editorInv (stepUI s e) := by
  obtain ⟨ha, ht, hi⟩ := hs
  cases e with
  | search q o => exact searchAuthor_editorInv ⟨ha, ht, hi⟩ he
  | toggleAuthors src => exact ⟨addRemove_paneInv ha he, ht, hi⟩
  | toggleTags src => exact ⟨ha, addRemove_paneInv ht he, hi⟩

theorem okUITrace_cons {s : EditorState} {e : UIEvent} {evs : List UIEvent} :
    okUITrace s (e :: evs)
      = (eventOKUI s e && okUITrace (stepUI s e) evs) := rfl

theorem runUI_editorInv {s : EditorState} {evs : List UIEvent}
    (hs : editorInv s) (hok : okUITrace s evs = true) :
    editorInv (runUI s evs) := by
  induction evs generalizing s with
  | nil => exact hs
  | cons e evs ih =>
    rw [okUITrace_cons, Bool.and_eq_true] at hok
    exact ih (stepUI_editorInv hs hok.1) hok.2

theorem addRemove_nodupSlugs {p : SelectionPane} {src : ClickSource}
    (h : nodupSlugs p.sel) :
    nodupSlugs (addRemoveSelectedItem p src).1.sel := by
  cases hts : (clickTarget p src).dsSlug with
  | none =>
    rw [addRemove_guard hts]
    exact h
  | some ts =>
    cases hfind : p.sel.findIdx? (fun item => item.slug == ts) with
    | some i =>
      rw [addRemove_remove hts hfind]
      show nodupSlugs (p.sel.eraseIdx i)
      rw [eraseIdx_findIdx?_eq_eraseP hfind]
      exact nodupSlugs_eraseP h
    | none =>
      rw [addRemove_add hts hfind]
      exact nodupSlugs_append_new h (not_mem_of_findIdx?_none hfind)

theorem loadOptions_sel_eq (cfg : Config) (attrs : Option HassAttributes)
    (aOut tOut : Except Unit WSResponse) (s : EditorState) :
    ((loadOptions cfg attrs aOut tOut s).authorsPane.sel = s.authorsPane.sel ∧
        (loadOptions cfg attrs aOut tOut s).tagsPane.sel = s.tagsPane.sel) ∨
      (∃ a, attrs = some a ∧
        (loadOptions cfg attrs aOut tOut s).authorsPane.sel
          = a.selected_authors ∧
        (loadOptions cfg attrs aOut tOut s).tagsPane.sel = a.selected_tags) := by
  unfold loadOptions
  by_cases hE : entityFalsy cfg = true
  · rw [if_pos hE]
    left
    exact ⟨rfl, rfl⟩
  · rw [if_neg hE]
    cases attrs with
    | some a =>
      right
      refine ⟨a, rfl, ?_⟩
      cases aOut with
      | error e => exact ⟨rfl, rfl⟩
      | ok ra =>
        cases tOut with
        | error e => exact ⟨rfl, rfl⟩
        | ok rt => exact ⟨rfl, rfl⟩
    | none =>
      left
      cases aOut with
      | error e => exact ⟨rfl, rfl⟩
      | ok ra =>
        cases tOut with
        | error e => exact ⟨rfl, rfl⟩
        | ok rt => exact ⟨rfl, rfl⟩

theorem step_selectionsNodup {s : EditorState} {ev : Event}
    (hs : selectionsNodup s) (hok : loadAttrsOK ev = true) :
    selectionsNodup (step s ev) := by
  cases ev with
  | load cfg attrs aOut tOut =>
    show selectionsNodup (loadOptions cfg attrs aOut tOut s)
    rcases loadOptions_sel_eq cfg attrs aOut tOut s with ⟨h1, h2⟩ | ⟨a, ha, h1, h2⟩
    · exact ⟨by rw [h1]; exact hs.1, by rw [h2]; exact hs.2⟩
    · subst ha
      unfold loadAttrsOK at hok
      rw [Bool.and_eq_true] at hok
      exact ⟨by rw [h1]; exact of_decide_eq_true hok.1,
        by rw [h2]; exact of_decide_eq_true hok.2⟩
  | ui e =>
    cases e with
    | search q o =>
      show selectionsNodup (searchAuthor s q o)
      have h := searchAuthor_pane_sel s q o
      exact ⟨by rw [h.1]; exact hs.1, by rw [h.2.1]; exact hs.2⟩
    | toggleAuthors src => exact ⟨addRemove_nodupSlugs hs.1, hs.2⟩
    | toggleTags src => exact ⟨hs.1, addRemove_nodupSlugs hs.2⟩

theorem run_selectionsNodup {s : EditorState} {evs : List Event}
    (hs : selectionsNodup s) (hok : evs.all loadAttrsOK = true) :
    selectionsNodup (run s evs) := by
  induction evs generalizing s with
  | nil => exact hs
  | cons e evs ih =>
    rw [List.all_cons, Bool.and_eq_true] at hok
    exact ih (step_selectionsNodup hs hok.1) hok.2

/-! ### Helpers for the double-toggle round trip -/

theorem clear_eq_self {e : Element} (h : e.selected = false) :
    { e with selected := false } = e := by
  cases e
  simp only at h
  rw [h]

theorem clearSelectedBySlug_id {ts : String} {rows : List Element}
    (h : ∀ r ∈ rows, r.dsSlug = some ts → r.selected = false) :
    clearSelectedBySlug ts rows = rows := by
  induction rows with
  | nil => rfl
  | cons a rs ih =>
    rw [clearSelectedBySlug_cons,
      ih (fun r hr => h r (List.mem_cons_of_mem a hr))]
    by_cases ha : (a.dsSlug == some ts) = true
    · rw [if_pos ha]
      have hds : a.dsSlug = some ts := by
        cases hcase : a.dsSlug with
        | none => rw [hcase] at ha; exact absurd ha (by rw [beq_none_some]; simp)
        | some x =>
          rw [hcase, beq_some_some, beq_iff_eq] at ha
          rw [ha]
      rw [clear_eq_self (h a (List.mem_cons_self a rs) hds)]
    · rw [if_neg ha]

theorem getD_set_self {l : List Element} {i : Nat} {a : Element}
    (hi : i < l.length) :
    (l.set i a).getD i defaultElement = a := by
  rw [List.getD_eq_getElem?_getD, List.getElem?_set_self hi]
  rfl

theorem clearSelectedBySlug_set_restore {rows : List Element} {i : Nat}
    {ts : String} (hi : i < rows.length)
    (hts : (rows.getD i defaultElement).dsSlug = some ts)
    (hsel : ∀ r ∈ rows, r.dsSlug = some ts → r.selected = false) :
    clearSelectedBySlug ts
        (rows.set i { rows.getD i defaultElement with selected := true })
      = rows := by
  induction rows generalizing i with
  | nil => simp at hi
  | cons a rs ih =>
    cases i with
    | zero =>
      rw [List.getD_cons_zero] at hts ⊢
      rw [List.set_cons_zero, clearSelectedBySlug_cons]
      have hcond : (({ a with selected := true } : Element).dsSlug == some ts)
          = true := by
        show (a.dsSlug == some ts) = true
        rw [hts]
        exact beq_self_eq_true (some ts)
      rw [if_pos hcond,
        clearSelectedBySlug_id (fun r hr => hsel r (List.mem_cons_of_mem a hr))]
      show ({ a with selected := false } : Element) :: rs = a :: rs
      rw [clear_eq_self (hsel a (List.mem_cons_self a rs) hts)]
    | succ j =>
      rw [List.getD_cons_succ] at hts ⊢
      rw [List.set_cons_succ, clearSelectedBySlug_cons,
        ih (by simpa using hi) hts (fun r hr => hsel r (List.mem_cons_of_mem a hr))]
      by_cases ha : (a.dsSlug == some ts) = true
      · rw [if_pos ha]
        have hds : a.dsSlug = some ts := by
          cases hcase : a.dsSlug with
          | none => rw [hcase] at ha; exact absurd ha (by rw [beq_none_some]; simp)
          | some x =>
            rw [hcase, beq_some_some, beq_iff_eq] at ha
            rw [ha]
        rw [clear_eq_self (hsel a (List.mem_cons_self a rs) hds)]
      · rw [if_neg ha]

theorem findIdx?_append_singleton {l : List Candidate} {x : Candidate}
    {p : Candidate → Bool} (hl : ∀ c ∈ l, p c = false) (hx : p x = true) :
    (l ++ [x]).findIdx? p = some l.length := by
  induction l with
  | nil =>
    rw [List.nil_append]
    rw [List.findIdx?_cons, hx]
    rfl
  | cons c cs ih =>
    rw [List.cons_append, List.findIdx?_cons,
      hl c (List.mem_cons_self c cs)]
    simp only [Bool.false_eq_true, if_false, List.findIdx?_succ]
    rw [ih (fun a ha => hl a (List.mem_cons_of_mem c ha))]
    rfl

theorem eraseIdx_append_length {l : List Candidate} {x : Candidate} :
    (l ++ [x]).eraseIdx l.length = l := by
  induction l with
  | nil => rfl
  | cons c cs ih =>
    rw [List.cons_append, List.length_cons]
    show c :: (cs ++ [x]).eraseIdx cs.length = c :: cs
    rw [ih]

theorem addRemove_add_row {p : SelectionPane} {i : Nat} {ts : String}
    (hts : (clickTarget p (.row i)).dsSlug = some ts)
    (hfind : p.sel.findIdx? (fun item => item.slug == ts) = none) :
    addRemoveSelectedItem p (.row i) =
      ({ sel := p.sel ++ [⟨(clickTarget p (.row i)).dsName.getD "undefined", ts⟩],
         rows := p.rows.set i { clickTarget p (.row i) with selected := true },
         summary :=
           p.sel ++ [⟨(clickTarget p (.row i)).dsName.getD "undefined", ts⟩] },
       true) := by
  rw [addRemove_add hts hfind]

/-- Toggling a row whose slug is not yet selected, twice in succession,
restores the selection, the rendered rows, and the summary exactly. -/
theorem addRemove_row_roundtrip {sel : List Candidate} {rows : List Element}
    {i : Nat} {ts : String} (hi : i < rows.length)
    (hslug : (rows.getD i defaultElement).dsSlug = some ts)
    (hnot : ∀ c ∈ sel, c.slug ≠ ts)
    (hrowsel : ∀ r ∈ rows, r.dsSlug = some ts → r.selected = false) :
    (addRemoveSelectedItem
        (addRemoveSelectedItem ⟨sel, rows, sel⟩ (.row i)).1 (.row i)).1
      = ⟨sel, rows, sel⟩ := by
  have hts1 : (clickTarget (⟨sel, rows, sel⟩ : SelectionPane) (.row i)).dsSlug
      = some ts := hslug
  have hfind1 : sel.findIdx? (fun item => item.slug == ts) = none := by
    rw [List.findIdx?_eq_none_iff]
    intro c hc
    rw [beq_eq_false_iff_ne]
    exact hnot c hc
  have h1 : addRemoveSelectedItem (⟨sel, rows, sel⟩ : SelectionPane) (.row i)
      = (⟨sel ++
            [(⟨(rows.getD i defaultElement).dsName.getD "undefined", ts⟩ :
              Candidate)],
          rows.set i { rows.getD i defaultElement with selected := true },
          sel ++
            [(⟨(rows.getD i defaultElement).dsName.getD "undefined", ts⟩ :
              Candidate)]⟩,
         true) := addRemove_add_row hts1 hfind1
  rw [h1]
  have hts2 : (clickTarget
      (⟨sel ++
          [(⟨(rows.getD i defaultElement).dsName.getD "undefined", ts⟩ :
            Candidate)],
        rows.set i { rows.getD i defaultElement with selected := true },
        sel ++
          [(⟨(rows.getD i defaultElement).dsName.getD "undefined", ts⟩ :
            Candidate)]⟩ :
          SelectionPane) (.row i)).dsSlug = some ts := by
    show ((rows.set i { rows.getD i defaultElement with selected := true }).getD
        i defaultElement).dsSlug = some ts
    rw [getD_set_self hi]
    exact hslug
  have hfind2 :
      (sel ++
          [(⟨(rows.getD i defaultElement).dsName.getD "undefined", ts⟩ :
            Candidate)]).findIdx?
        (fun item => item.slug == ts) = some sel.length := by
    refine findIdx?_append_singleton (fun c hc => ?_) ?_
    · rw [beq_eq_false_iff_ne]
      exact hnot c hc
    · exact beq_self_eq_true ts
  have h2 := addRemove_remove hts2 hfind2
  rw [h2]
  show (⟨(sel ++
      [(⟨(rows.getD i defaultElement).dsName.getD "undefined", ts⟩ :
        Candidate)]).eraseIdx sel.length,
    clearSelectedBySlug ts
      (rows.set i { rows.getD i defaultElement with selected := true }),
    (sel ++
      [(⟨(rows.getD i defaultElement).dsName.getD "undefined", ts⟩ :
        Candidate)]).eraseIdx sel.length⟩ : SelectionPane) = ⟨sel, rows, sel⟩
  rw [eraseIdx_append_length, clearSelectedBySlug_set_restore hi hslug hrowsel]

/-! ### Helpers for load and search claims -/

theorem loadOptions_initialAuthors {cfg : Config} {attrs : Option HassAttributes}
    {ra : WSResponse} {tOut : Except Unit WSResponse} {s : EditorState}
    (hE : entityFalsy cfg = false) (hsucc : ra.success = true) :
    (loadOptions cfg attrs (.ok ra) tOut s).initialAuthors = ra.data := by
  have hE2 : ¬ entityFalsy cfg = true := by rw [hE]; simp
  unfold loadOptions
  rw [if_neg hE2]
  cases attrs with
  | some a =>
    cases tOut with
    | error e =>
      show (if ra.success then ra.data else []) = ra.data
      rw [if_pos hsucc]
    | ok rt =>
      show (if ra.success then ra.data else []) = ra.data
      rw [if_pos hsucc]
  | none =>
    cases tOut with
    | error e =>
      show (if ra.success then ra.data else []) = ra.data
      rw [if_pos hsucc]
    | ok rt =>
      show (if ra.success then ra.data else []) = ra.data
      rw [if_pos hsucc]

theorem foldl_search_initialAuthors
    (l : List (String × Except Unit WSResponse)) (st : EditorState) :
    (l.foldl (fun st qo => searchAuthor st qo.1 qo.2) st).initialAuthors
      = st.initialAuthors := by
  induction l generalizing st with
  | nil => rfl
  | cons qo l ih =>
    rw [List.foldl_cons, ih, (searchAuthor_pane_sel st qo.1 qo.2).2.2]

theorem searchAuthor_empty (s : EditorState) (o : Except Unit WSResponse) :
    searchAuthor s "" o
      = { s with
          authors := s.initialAuthors
          authorsPane.rows := renderRows s.authorsPane.sel s.initialAuthors } := by
  unfold searchAuthor
  rw [if_pos rfl]

theorem slugMemB_eq_true_iff {sel : List Candidate} {d : Option String} :
    slugMemB sel d = true ↔ ∃ c ∈ sel, some c.slug = d := by
  cases d with
  | none =>
    rw [slugMemB_none]
    simp
  | some ts =>
    rw [slugMemB_some_iff]
    simp only [Option.some.injEq]

/-! ## Claims -/

/-- C1, counterexample: toggling a candidate that is already in the
selection set twice does not restore the original order.  Starting from the
rendered state whose selection is `[{A,a}, {B,b}]` (both rows marked),
clicking row `a` twice removes `{A,a}` and then re-appends it at the end,
leaving the selection `[{B,b}, {A,a}]` - so "every candidate item x carrying
a slug" is refuted. -/
theorem toggle_twice_changes_order_cex :
    (addRemoveSelectedItem
        (addRemoveSelectedItem
          (⟨[⟨"A", "a"⟩, ⟨"B", "b"⟩],
            [⟨some "A", some "a", true⟩, ⟨some "B", some "b", true⟩],
            [⟨"A", "a"⟩, ⟨"B", "b"⟩]⟩ : SelectionPane)
          (.row 0)).1
        (.row 0)).1
      ≠ (⟨[⟨"A", "a"⟩, ⟨"B", "b"⟩],
          [⟨some "A", some "a", true⟩, ⟨some "B", some "b", true⟩],
          [⟨"A", "a"⟩, ⟨"B", "b"⟩]⟩ : SelectionPane) := by
  decide

/-- C1 (amended): for every selection set, toggling a candidate row whose
slug is NOT already in the selection set twice in immediate succession
returns the selection set to exactly its original content and order, and
returns the rendered selected-markers and the summary content to their
original state.  (For a candidate already in the set, the pair removes it
and re-appends it at the end, as the counterexample shows.)  The hypotheses
state that the clicked row exists and carries the slug, that no row with
that slug is marked, and that the summary mirrors the selection - all
facts that hold in every rendered state by the C3 invariant. -/
theorem toggle_row_twice_restores (p : SelectionPane) (i : Nat) (ts : String)
    (hi : i < p.rows.length)
    (hslug : (p.rows.getD i defaultElement).dsSlug = some ts)
    (hnot : ∀ c ∈ p.sel, c.slug ≠ ts)
    (hrowsel : ∀ r ∈ p.rows, r.dsSlug = some ts → r.selected = false)
    (hsum : p.summary = p.sel) :
    (addRemoveSelectedItem (addRemoveSelectedItem p (.row i)).1 (.row i)).1
      = p := by
  obtain ⟨sel, rows, summary⟩ := p
  have hsum2 : summary = sel := hsum
  subst hsum2
  exact addRemove_row_roundtrip hi hslug hnot hrowsel

/-- C1 witness: double-toggling the unselected row `a` in a concrete
rendered pane restores the pane exactly. -/
theorem toggle_row_twice_restores_witness :
    (addRemoveSelectedItem
        (addRemoveSelectedItem
          (⟨[⟨"B", "b"⟩],
            [⟨some "A", some "a", false⟩, ⟨some "B", some "b", true⟩],
            [⟨"B", "b"⟩]⟩ : SelectionPane)
          (.row 0)).1
        (.row 0)).1
      = (⟨[⟨"B", "b"⟩],
          [⟨some "A", some "a", false⟩, ⟨some "B", some "b", true⟩],
          [⟨"B", "b"⟩]⟩ : SelectionPane) :=
  toggle_row_twice_restores _ 0 "a" (by decide) (by decide) (by decide)
    (by decide) (by decide)

/-- C2: starting from any state whose two selection sequences are
slug-deduplicated (the constructor state in particular), after any event
trace - loads reading back well-formed stored selections, searches, and
arbitrary toggles - both the selected-authors and the selected-tags
sequences still contain no two entries with the same slug. -/
theorem selection_sets_slug_nodup (s : EditorState) (evs : List Event)
    (hsel : selectionsNodup s) (hok : evs.all loadAttrsOK = true) :
    nodupSlugs (run s evs).authorsPane.sel ∧
      nodupSlugs (run s evs).tagsPane.sel :=
  run_selectionsNodup hsel hok

/-- C2 witness: a concrete load followed by a toggle keeps both selection
sequences slug-deduplicated. -/
theorem selection_sets_slug_nodup_witness :
    nodupSlugs (run
        (⟨[], [], [], ⟨[], [], []⟩, ⟨[], [], []⟩, "", "", "", false⟩ :
          EditorState)
        [Event.load ⟨some "quotable.quotable"⟩
            (some ⟨[⟨"A", "a"⟩], [⟨"T", "t"⟩], ⟨"#111", "#222"⟩, 600⟩)
            (.ok ⟨true, [⟨"A", "a"⟩, ⟨"B", "b"⟩]⟩) (.ok ⟨true, []⟩),
          Event.ui (.toggleAuthors (.row 1))]).authorsPane.sel ∧
      nodupSlugs (run
        (⟨[], [], [], ⟨[], [], []⟩, ⟨[], [], []⟩, "", "", "", false⟩ :
          EditorState)
        [Event.load ⟨some "quotable.quotable"⟩
            (some ⟨[⟨"A", "a"⟩], [⟨"T", "t"⟩], ⟨"#111", "#222"⟩, 600⟩)
            (.ok ⟨true, [⟨"A", "a"⟩, ⟨"B", "b"⟩]⟩) (.ok ⟨true, []⟩),
          Event.ui (.toggleAuthors (.row 1))]).tagsPane.sel :=
  selection_sets_slug_nodup _ _ (by decide) (by decide)

/-- C3: from any state satisfying the rendered-editor invariant, after any
sequence of toggles and searches (clicks dispatched from the pane's own
DOM, search results slug-deduplicated), every row element of both candidate
list containers carries the `"selected"` marker iff its `data-slug` is the
slug of a member of the corresponding in-memory selection set. -/
theorem markers_match_selection (s : EditorState) (evs : List UIEvent)
    (hs : editorInv s) (hok : okUITrace s evs = true) :
    (∀ r ∈ (runUI s evs).authorsPane.rows,
        (r.selected = true ↔
          ∃ c ∈ (runUI s evs).authorsPane.sel, some c.slug = r.dsSlug)) ∧
      ∀ r ∈ (runUI s evs).tagsPane.rows,
        (r.selected = true ↔
          ∃ c ∈ (runUI s evs).tagsPane.sel, some c.slug = r.dsSlug) := by
  have hinv := runUI_editorInv hs hok
  constructor
  · intro r hr
    rw [hinv.1.2.2.2 r hr]
    exact slugMemB_eq_true_iff
  · intro r hr
    rw [hinv.2.1.2.2.2 r hr]
    exact slugMemB_eq_true_iff

/-- C3 witness: a concrete toggle followed by an empty search keeps the
markers of both panes in agreement with the selections. -/
theorem markers_match_selection_witness :
    (∀ r ∈ (runUI
        (⟨[⟨"A", "a"⟩, ⟨"B", "b"⟩], [⟨"A", "a"⟩, ⟨"B", "b"⟩], [],
          ⟨[⟨"A", "a"⟩],
            [⟨some "A", some "a", true⟩, ⟨some "B", some "b", false⟩],
            [⟨"A", "a"⟩]⟩,
          ⟨[], [], []⟩, "10", "#fff", "#000", true⟩ : EditorState)
        [UIEvent.toggleAuthors (.row 1),
          UIEvent.search "" (.error ())]).authorsPane.rows,
        (r.selected = true ↔
          ∃ c ∈ (runUI
            (⟨[⟨"A", "a"⟩, ⟨"B", "b"⟩], [⟨"A", "a"⟩, ⟨"B", "b"⟩], [],
              ⟨[⟨"A", "a"⟩],
                [⟨some "A", some "a", true⟩, ⟨some "B", some "b", false⟩],
                [⟨"A", "a"⟩]⟩,
              ⟨[], [], []⟩, "10", "#fff", "#000", true⟩ : EditorState)
            [UIEvent.toggleAuthors (.row 1),
              UIEvent.search "" (.error ())]).authorsPane.sel,
            some c.slug = r.dsSlug)) ∧
      ∀ r ∈ (runUI
        (⟨[⟨"A", "a"⟩, ⟨"B", "b"⟩], [⟨"A", "a"⟩, ⟨"B", "b"⟩], [],
          ⟨[⟨"A", "a"⟩],
            [⟨some "A", some "a", true⟩, ⟨some "B", some "b", false⟩],
            [⟨"A", "a"⟩]⟩,
          ⟨[], [], []⟩, "10", "#fff", "#000", true⟩ : EditorState)
        [UIEvent.toggleAuthors (.row 1),
          UIEvent.search "" (.error ())]).tagsPane.rows,
        (r.selected = true ↔
          ∃ c ∈ (runUI
            (⟨[⟨"A", "a"⟩, ⟨"B", "b"⟩], [⟨"A", "a"⟩, ⟨"B", "b"⟩], [],
              ⟨[⟨"A", "a"⟩],
                [⟨some "A", some "a", true⟩, ⟨some "B", some "b", false⟩],
                [⟨"A", "a"⟩]⟩,
              ⟨[], [], []⟩, "10", "#fff", "#000", true⟩ : EditorState)
            [UIEvent.toggleAuthors (.row 1),
              UIEvent.search "" (.error ())]).tagsPane.sel,
            some c.slug = r.dsSlug) :=
  markers_match_selection _ _ (by decide) (by decide)

/-- C4, counterexample: for the non-numeric interval value `"abc"`,
`parseInt(intervalMinutes) * 60` is `NaN` (modelled `none`), not `0`, in the
save payload - JS integer-parse semantics do not normalize `NaN` to `0`.
The payload is still built (the save does not crash). -/
theorem update_frequency_nonnumeric_cex :
    (updateConfigData ⟨some "quotable.quotable"⟩
        (⟨[], [], [], ⟨[], [], []⟩, ⟨[], [], []⟩, "abc", "#fff", "#000",
          true⟩ : EditorState)).update_frequency = none ∧
      (updateConfigData ⟨some "quotable.quotable"⟩
        (⟨[], [], [], ⟨[], [], []⟩, ⟨[], [], []⟩, "abc", "#fff", "#000",
          true⟩ : EditorState)).update_frequency ≠ some 0 := by
  decide

/-- C4 (amended): for every interval value, the `update_frequency` field of
the save payload equals `parseInt(intervalMinutes) * 60` computed with JS
`NaN` propagation: `some (n * 60)` when the parse yields `n`, and `NaN`
(`none`, not `0`) for every non-numeric interval value.  The payload
construction is total, so a non-numeric value never crashes the save. -/
theorem update_frequency_parse_times_sixty (cfg : Config) (s : EditorState) :
    (parseIntJS s.intervalValue = none →
        (updateConfigData cfg s).update_frequency = none) ∧
      ∀ n : Int, parseIntJS s.intervalValue = some n →
        (updateConfigData cfg s).update_frequency = some (n * 60) := by
  constructor
  · intro h
    show jsMulNaN (parseIntJS s.intervalValue) (some 60) = none
    rw [h]
    rfl
  · intro n h
    show jsMulNaN (parseIntJS s.intervalValue) (some 60) = some (n * 60)
    rw [h]
    rfl

/-- C4 witness: interval `"abc"` yields `NaN`; interval `"5"` yields 300
seconds. -/
theorem update_frequency_parse_times_sixty_witness :
    (updateConfigData ⟨some "quotable.quotable"⟩
        (⟨[], [], [], ⟨[], [], []⟩, ⟨[], [], []⟩, "abc", "#fff", "#000",
          true⟩ : EditorState)).update_frequency = none ∧
      (updateConfigData ⟨some "quotable.quotable"⟩
        (⟨[], [], [], ⟨[], [], []⟩, ⟨[], [], []⟩, "5", "#fff", "#000",
          true⟩ : EditorState)).update_frequency = some 300 :=
  ⟨(update_frequency_parse_times_sixty ⟨some "quotable.quotable"⟩
      (⟨[], [], [], ⟨[], [], []⟩, ⟨[], [], []⟩, "abc", "#fff", "#000",
        true⟩ : EditorState)).1 (by decide),
    (update_frequency_parse_times_sixty ⟨some "quotable.quotable"⟩
      (⟨[], [], [], ⟨[], [], []⟩, ⟨[], [], []⟩, "5", "#fff", "#000",
        true⟩ : EditorState)).2 5 (by decide)⟩

/-- C5, counterexample: the save payload of part_002's `updateConfiguration`
does not carry the selections as slug-identifier sequences.  Two editor
states whose selections agree on every slug (both `["a"]`/`["t"]`) but
differ in one author's `name` produce different payloads, and the payload of
the first carries the full `{name, slug}` object - selection
`[{name:"A",slug:"a"}]` yields `selected_authors` `[{name:"A",slug:"a"}]`,
not `["a"]`. -/
theorem save_payload_full_objects_cex :
    (updateConfigData ⟨some "quotable.quotable"⟩
        (⟨[], [], [], ⟨[⟨"A", "a"⟩], [], []⟩, ⟨[⟨"T", "t"⟩], [], []⟩, "5",
          "#fff", "#000", true⟩ : EditorState)).selected_authors
      = [⟨"A", "a"⟩] ∧
    (⟨[], [], [], ⟨[⟨"A", "a"⟩], [], []⟩, ⟨[⟨"T", "t"⟩], [], []⟩, "5",
        "#fff", "#000", true⟩ : EditorState).authorsPane.sel.map
        (fun c => c.slug)
      = (⟨[], [], [], ⟨[⟨"B", "a"⟩], [], []⟩, ⟨[⟨"T", "t"⟩], [], []⟩, "5",
          "#fff", "#000", true⟩ : EditorState).authorsPane.sel.map
          (fun c => c.slug) ∧
    updateConfigData ⟨some "quotable.quotable"⟩
        (⟨[], [], [], ⟨[⟨"A", "a"⟩], [], []⟩, ⟨[⟨"T", "t"⟩], [], []⟩, "5",
          "#fff", "#000", true⟩ : EditorState)
      ≠ updateConfigData ⟨some "quotable.quotable"⟩
          (⟨[], [], [], ⟨[⟨"B", "a"⟩], [], []⟩, ⟨[⟨"T", "t"⟩], [], []⟩, "5",
            "#fff", "#000", true⟩ : EditorState) := by
  decide

/-- C5 (amended): the save payload built by part_002's `updateConfiguration`
carries the selected authors and tags as the full candidate-object sequences
in the selection set's current order; the part_001 snapshot instead maps
them to their slug sequences, so there the selection
`[{name:"A",slug:"a"}]` yields `selected_authors ["a"]` and the empty
selection yields `[]`. -/
theorem save_payload_selection_shape (cfg : Config) (s : EditorState) :
    (updateConfigData cfg s).selected_authors = s.authorsPane.sel ∧
      (updateConfigData cfg s).selected_tags = s.tagsPane.sel ∧
      (updateConfigDataV001 cfg s).selected_authors
        = s.authorsPane.sel.map (fun author => author.slug) ∧
      (updateConfigDataV001 cfg s).selected_tags
        = s.tagsPane.sel.map (fun tag => tag.slug) ∧
      (updateConfigDataV001 ⟨some "quotable.quotable"⟩
        (⟨[], [], [], ⟨[⟨"A", "a"⟩], [], []⟩, ⟨[], [], []⟩, "5", "#fff",
          "#000", true⟩ : EditorState)).selected_authors = ["a"] ∧
      (updateConfigDataV001 ⟨some "quotable.quotable"⟩
        (⟨[], [], [], ⟨[], [], []⟩, ⟨[], [], []⟩, "5", "#fff", "#000",
          true⟩ : EditorState)).selected_authors = [] :=
  ⟨rfl, rfl, rfl, rfl, rfl, rfl⟩

/-- C6: after a load whose author fetch resolves successfully, any sequence
of searches, and then a search with the empty-string query, the in-memory
author list and the rendered candidate rows are rebuilt from the author
list fetched at load time (the `_initial_authors` snapshot), not from the
most recently searched list. -/
theorem empty_search_restores_load_snapshot
    (cfg : Config) (attrs : Option HassAttributes) (ra : WSResponse)
    (tOut : Except Unit WSResponse) (s : EditorState)
    (searches : List (String × Except Unit WSResponse))
    (o : Except Unit WSResponse)
    (hE : entityFalsy cfg = false) (hsucc : ra.success = true) :
    (searchAuthor
        (searches.foldl (fun st qo => searchAuthor st qo.1 qo.2)
          (loadOptions cfg attrs (.ok ra) tOut s)) "" o).authors = ra.data ∧
      (searchAuthor
        (searches.foldl (fun st qo => searchAuthor st qo.1 qo.2)
          (loadOptions cfg attrs (.ok ra) tOut s)) "" o).authorsPane.rows
        = renderRows
            (searches.foldl (fun st qo => searchAuthor st qo.1 qo.2)
              (loadOptions cfg attrs (.ok ra) tOut s)).authorsPane.sel
            ra.data := by
  have hinit : (searches.foldl (fun st qo => searchAuthor st qo.1 qo.2)
      (loadOptions cfg attrs (.ok ra) tOut s)).initialAuthors = ra.data := by
    rw [foldl_search_initialAuthors, loadOptions_initialAuthors hE hsucc]
  constructor
  · rw [searchAuthor_empty]
    exact hinit
  · rw [searchAuthor_empty]
    show renderRows _ (searches.foldl (fun st qo => searchAuthor st qo.1 qo.2)
      (loadOptions cfg attrs (.ok ra) tOut s)).initialAuthors = _
    rw [hinit]

/-- C6 witness: a concrete load of `[a, b]`, a search replacing the list by
`[b]`, then an empty search, restores `[a, b]`. -/
theorem empty_search_restores_load_snapshot_witness :
    (searchAuthor
        ([(("b" : String), (.ok ⟨true, [⟨"B", "b"⟩]⟩ :
            Except Unit WSResponse))].foldl
          (fun st qo => searchAuthor st qo.1 qo.2)
          (loadOptions ⟨some "quotable.quotable"⟩ none
            (.ok ⟨true, [⟨"A", "a"⟩, ⟨"B", "b"⟩]⟩) (.ok ⟨true, []⟩)
            (⟨[], [], [], ⟨[], [], []⟩, ⟨[], [], []⟩, "", "", "", false⟩ :
              EditorState))) "" (.error ())).authors
      = [⟨"A", "a"⟩, ⟨"B", "b"⟩] ∧
      (searchAuthor
        ([(("b" : String), (.ok ⟨true, [⟨"B", "b"⟩]⟩ :
            Except Unit WSResponse))].foldl
          (fun st qo => searchAuthor st qo.1 qo.2)
          (loadOptions ⟨some "quotable.quotable"⟩ none
            (.ok ⟨true, [⟨"A", "a"⟩, ⟨"B", "b"⟩]⟩) (.ok ⟨true, []⟩)
            (⟨[], [], [], ⟨[], [], []⟩, ⟨[], [], []⟩, "", "", "", false⟩ :
              EditorState))) "" (.error ())).authorsPane.rows
        = renderRows
            (([(("b" : String), (.ok ⟨true, [⟨"B", "b"⟩]⟩ :
                Except Unit WSResponse))].foldl
              (fun st qo => searchAuthor st qo.1 qo.2)
              (loadOptions ⟨some "quotable.quotable"⟩ none
                (.ok ⟨true, [⟨"A", "a"⟩, ⟨"B", "b"⟩]⟩) (.ok ⟨true, []⟩)
                (⟨[], [], [], ⟨[], [], []⟩, ⟨[], [], []⟩, "", "", "",
                  false⟩ : EditorState))).authorsPane.sel)
            [⟨"A", "a"⟩, ⟨"B", "b"⟩] :=
  empty_search_restores_load_snapshot _ _ _ _ _ _ _ (by decide) (by decide)

/-- C7: a toggle whose clicked target carries no `data-slug` (for example a
whitespace click) is a no-op: the selection set, every row's marker, and the
summary container are unchanged, and no configuration save is triggered
(the `false` component). -/
theorem toggle_without_slug_is_noop (p : SelectionPane) (src : ClickSource)
    (h : (clickTarget p src).dsSlug = none) :
    addRemoveSelectedItem p src = (p, false) :=
  addRemove_guard h

/-- C7 witness: clicking the container itself (an element with no
`data-slug`) on a concrete pane changes nothing and triggers no save. -/
theorem toggle_without_slug_is_noop_witness :
    addRemoveSelectedItem
        (⟨[⟨"A", "a"⟩],
          [⟨some "A", some "a", true⟩, ⟨some "B", some "b", false⟩],
          [⟨"A", "a"⟩]⟩ : SelectionPane)
        (.chip ⟨none, none, false⟩)
      = ((⟨[⟨"A", "a"⟩],
          [⟨some "A", some "a", true⟩, ⟨some "B", some "b", false⟩],
          [⟨"A", "a"⟩]⟩ : SelectionPane), false) :=
  toggle_without_slug_is_noop _ _ rfl

/-- C8: when the config carries no entity identifier, or the author fetch
rejects, or the tag fetch rejects, `loadOptions` returns with the editor
still unrendered (no form element is produced).  The model is total, so the
surrounding `try` swallows the rejection and no uncaught error escapes. -/
theorem load_failure_leaves_unrendered (cfg : Config)
    (attrs : Option HassAttributes) (aOut tOut : Except Unit WSResponse)
    (s : EditorState) (hs : s.rendered = false)
    (h : entityFalsy cfg = true ∨ aOut = .error () ∨ tOut = .error ()) :
    (loadOptions cfg attrs aOut tOut s).rendered = false := by
  unfold loadOptions
  by_cases hE : entityFalsy cfg = true
  · rw [if_pos hE]
    exact hs
  · rw [if_neg hE]
    rcases h with h | h | h
    · exact absurd h hE
    · subst h
      cases attrs with
      | some a => exact hs
      | none => exact hs
    · subst h
      cases attrs with
      | some a =>
        cases aOut with
        | error e => exact hs
        | ok ra => exact hs
      | none =>
        cases aOut with
        | error e => exact hs
        | ok ra => exact hs

/-- C8 witness: a load with a rejecting author fetch leaves the constructor
state unrendered. -/
theorem load_failure_leaves_unrendered_witness :
    (loadOptions ⟨some "quotable.quotable"⟩ none (.error ())
        (.ok ⟨true, []⟩)
        (⟨[], [], [], ⟨[], [], []⟩, ⟨[], [], []⟩, "", "", "", false⟩ :
          EditorState)).rendered = false :=
  load_failure_leaves_unrendered _ _ _ _ _ (by decide)
    (Or.inr (Or.inl rfl))

/-- C9, counterexample: an `update_configuration` call that resolves without
throwing but with a falsy acknowledgement (for example `undefined`) passes
the source's `if (responseUpdateConfig)` guard negatively: no
`config-changed` event is dispatched and no `fetch_a_quote` call is issued,
refuting "every save in which the call resolves without throwing". -/
theorem save_falsy_ack_no_event_cex :
    (updateConfiguration ⟨some "quotable.quotable"⟩
        (⟨[], [], [], ⟨[], [], []⟩, ⟨[], [], []⟩, "5", "#fff", "#000",
          true⟩ : EditorState)
        (.ok false)).2.configChangedEvents = [] ∧
      (updateConfiguration ⟨some "quotable.quotable"⟩
        (⟨[], [], [], ⟨[], [], []⟩, ⟨[], [], []⟩, "5", "#fff", "#000",
          true⟩ : EditorState)
        (.ok false)).2.fetchQuoteCalls = 0 :=
  ⟨rfl, rfl⟩

/-- C9 (amended): `updateConfiguration` never mutates the editor state.
When the `update_configuration` call resolves with a truthy
acknowledgement, it dispatches exactly one `config-changed` event whose
detail carries the editor's config object unchanged and then issues exactly
one `fetch_a_quote` call; when the call rejects - or resolves with a falsy
acknowledgement - it does neither. -/
theorem save_events_on_ack (cfg : Config) (s : EditorState) :
    (∀ out : Except Unit Bool, (updateConfiguration cfg s out).1 = s) ∧
      (updateConfiguration cfg s (.ok true)).2.configChangedEvents = [cfg] ∧
      (updateConfiguration cfg s (.ok true)).2.fetchQuoteCalls = 1 ∧
      (∀ e : Unit,
        (updateConfiguration cfg s (.error e)).2.configChangedEvents = [] ∧
          (updateConfiguration cfg s (.error e)).2.fetchQuoteCalls = 0) ∧
      (updateConfiguration cfg s (.ok false)).2.configChangedEvents = [] ∧
      (updateConfiguration cfg s (.ok false)).2.fetchQuoteCalls = 0 := by
  refine ⟨?_, rfl, rfl, ?_, rfl, rfl⟩
  · intro out
    cases out with
    | error e => rfl
    | ok ack =>
      cases ack with
      | true => rfl
      | false => rfl
  · intro e
    exact ⟨rfl, rfl⟩

/-- C10: a load-time fetch that resolves with `success: false` does not
abort the load: the corresponding candidate list is set to `[]` and the
form is still rendered - in contrast with the rejecting calls of C8. -/
theorem load_success_false_still_renders (cfg : Config)
    (attrs : Option HassAttributes) (s : EditorState)
    (d d2 : List Candidate) (ra rt : WSResponse)
    (hE : entityFalsy cfg = false) :
    ((loadOptions cfg attrs (.ok ⟨false, d⟩) (.ok rt) s).authors = [] ∧
        (loadOptions cfg attrs (.ok ⟨false, d⟩) (.ok rt) s).rendered
          = true) ∧
      (loadOptions cfg attrs (.ok ra) (.ok ⟨false, d2⟩) s).tags = [] ∧
        (loadOptions cfg attrs (.ok ra) (.ok ⟨false, d2⟩) s).rendered
          = true := by
  have hE2 : ¬ entityFalsy cfg = true := by
    rw [hE]
    simp
  unfold loadOptions
  simp only [if_neg hE2]
  cases attrs with
  | some a => exact ⟨⟨rfl, rfl⟩, rfl, rfl⟩
  | none => exact ⟨⟨rfl, rfl⟩, rfl, rfl⟩

/-- C10 witness: concrete loads whose author (respectively tag) fetch
reports `success: false` still render, with that list empty. -/
theorem load_success_false_still_renders_witness :
    (((loadOptions ⟨some "quotable.quotable"⟩ none
          (.ok ⟨false, [⟨"A", "a"⟩]⟩) (.ok ⟨true, []⟩)
          (⟨[], [], [], ⟨[], [], []⟩, ⟨[], [], []⟩, "", "", "", false⟩ :
            EditorState)).authors = [] ∧
        (loadOptions ⟨some "quotable.quotable"⟩ none
          (.ok ⟨false, [⟨"A", "a"⟩]⟩) (.ok ⟨true, []⟩)
          (⟨[], [], [], ⟨[], [], []⟩, ⟨[], [], []⟩, "", "", "", false⟩ :
            EditorState)).rendered = true) ∧
      (loadOptions ⟨some "quotable.quotable"⟩ none
          (.ok ⟨true, [⟨"A", "a"⟩]⟩) (.ok ⟨false, [⟨"T", "t"⟩]⟩)
          (⟨[], [], [], ⟨[], [], []⟩, ⟨[], [], []⟩, "", "", "", false⟩ :
            EditorState)).tags = [] ∧
        (loadOptions ⟨some "quotable.quotable"⟩ none
          (.ok ⟨true, [⟨"A", "a"⟩]⟩) (.ok ⟨false, [⟨"T", "t"⟩]⟩)
          (⟨[], [], [], ⟨[], [], []⟩, ⟨[], [], []⟩, "", "", "", false⟩ :
            EditorState)).rendered = true) :=
  load_success_false_still_renders _ none _ [⟨"A", "a"⟩] [⟨"T", "t"⟩]
    ⟨true, [⟨"A", "a"⟩]⟩ ⟨true, []⟩ (by decide)

end Quotable
